import Mathlib

/-!
Verification of the TimeWise task tracker's query-builder, schema-setup,
task-model and ranking subsystems, shallowly embedded from the Python
sources (src/src/database/query_builder.py, src/src/database/query_builder/
__init__.py, src/src/timewise.py, src/src/models/task.py,
src/src/models/recurrence.py, src/src/sort/plugins/priority_due.py).

Datetimes are modelled as integer epoch seconds; Python dicts keyed by
strings are modelled as association lists preserving insertion order;
exceptions are modelled with `Except`.
-/

namespace TimeWise

/-- Errors raised by the validator and the query builders: `ValueError`
and `QueryBuilderException` in the Python source. -/
inductive PyErr where
  | valueError (msg : String)
  | queryBuilderException (msg : String)
deriving DecidableEq, Repr

/-- Character class `[A-Za-z0-9_]` of the identifier regex in
`SQLValidator.validate_identifier`. -/
def isWordChar (c : Char) : Bool :=
  c.isAlphanum || c == '_'

/-- One-or-more repetition of the class over a whole character list:
the `[A-Za-z0-9_]+` core of the pattern. -/
def validMatchChars (cs : List Char) : Bool :=
  !cs.isEmpty && cs.all isWordChar

/-- CPython `re.match(r"^[A-Za-z0-9_]+$", s) is not None`.  Note the
CPython semantics of `$` (without `re.MULTILINE`): it matches at the end
of the string, or just before a newline at the end of the string.  Hence
the pattern accepts `body` and `body ++ "\n"` for a non-empty all-class
`body`. -/
def reMatchIdentifier (s : String) : Bool :=
  validMatchChars s.data ||
    (match s.data.getLast? with
     | some c => c == '\n' && validMatchChars s.data.dropLast
     | none => false)

/-- Argument to `validate_identifier`: the Python call sites pass
strings, ints or floats; anything else fails the `isinstance` check.
A float is carried as its CPython `str()` rendering, since the
validator only ever inspects `str(x)`. -/
inductive PyIdentArg where
  | str (s : String)
  | intVal (n : Int)
  | floatRepr (s : String)
  | other
deriving DecidableEq, Repr

/-- The `str(identifier)` conversion applied before the regex test
(Lean's `toString` on `Int` agrees with CPython's `str` on `int`). -/
def pyStrForm : PyIdentArg → String
  | .str s => s
  | .intVal n => toString n
  | .floatRepr s => s
  | .other => ""

/-- `SQLValidator.validate_identifier` (query_builder.py:10-17):
rejects non-(str/float/int) arguments, then rejects anything whose
string form fails `re.match(r"^[A-Za-z0-9_]+$", ...)`. -/
def validate_identifier (x : PyIdentArg) : Except PyErr Unit :=
  match x with
  | .other => .error (.valueError "Invalid identifier. Identifiers must be strings.")
  | _ =>
    if reMatchIdentifier (pyStrForm x) then .ok ()
    else .error (.valueError "Invalid identifier. Identifiers must be alphanumeric or underscore characters only.")

/-- Acceptance predicate spelled the way the amended claim reads: the
string form is a non-empty run of `[A-Za-z0-9_]` characters, optionally
followed by one trailing newline. -/
def identAccepted (s : String) : Prop :=
  (s.data ≠ [] ∧ ∀ c ∈ s.data, isWordChar c) ∨
    (∃ body, s.data = body ++ ['\n'] ∧ body ≠ [] ∧ ∀ c ∈ body, isWordChar c)

theorem validMatchChars_iff (cs : List Char) :
    validMatchChars cs = true ↔ cs ≠ [] ∧ ∀ c ∈ cs, isWordChar c := by
  simp [validMatchChars, List.all_eq_true, List.isEmpty_iff]

theorem reMatchIdentifier_iff (s : String) :
    reMatchIdentifier s = true ↔ identAccepted s := by
  unfold reMatchIdentifier identAccepted
  constructor
  · intro h
    rcases Bool.or_eq_true _ _ |>.mp h with h1 | h2
    · exact Or.inl ((validMatchChars_iff _).mp h1)
    · match hlast : s.data.getLast? with
      | none => rw [hlast] at h2; simp at h2
      | some c =>
        rw [hlast] at h2
        have hc : c = '\n' := by
          have := (Bool.and_eq_true _ _).mp h2 |>.1
          simpa using this
        have hbody := (validMatchChars_iff _).mp ((Bool.and_eq_true _ _).mp h2 |>.2)
        have hne : s.data ≠ [] := by
          intro hnil
          rw [hnil] at hlast
          simp at hlast
        refine Or.inr ⟨s.data.dropLast, ?_, hbody.1, hbody.2⟩
        have hsplit := List.dropLast_append_getLast hne
        have hg : s.data.getLast hne = c := by
          have hq := List.getLast?_eq_getLast s.data hne
          rw [hq] at hlast
          exact Option.some_inj.mp hlast
        rw [hg, hc] at hsplit
        exact hsplit.symm
  · intro h
    rcases h with ⟨hne, hall⟩ | ⟨body, hb, hbne, hball⟩
    · exact Bool.or_eq_true _ _ |>.mpr (Or.inl ((validMatchChars_iff _).mpr ⟨hne, hall⟩))
    · refine Bool.or_eq_true _ _ |>.mpr (Or.inr ?_)
      rw [hb]
      have hlast : (body ++ ['\n']).getLast? = some '\n' := by
        simp [List.getLast?_concat]
      rw [hlast]
      have hdrop : (body ++ ['\n']).dropLast = body := by
        simp
      rw [hdrop]
      simp only [beq_self_eq_true, Bool.true_and]
      exact (validMatchChars_iff _).mpr ⟨hbne, hball⟩

theorem validate_identifier_str_iff (s : String) :
    validate_identifier (.str s) = .ok () ↔ identAccepted s := by
  rw [← reMatchIdentifier_iff]
  unfold validate_identifier pyStrForm
  by_cases hm : reMatchIdentifier s = true
  · simp [hm]
  · simp [hm]

theorem validate_identifier_int_iff (n : Int) :
    validate_identifier (.intVal n) = .ok () ↔ identAccepted (toString n) := by
  rw [← reMatchIdentifier_iff]
  unfold validate_identifier pyStrForm
  by_cases hm : reMatchIdentifier (toString n) = true
  · simp [hm]
  · simp [hm]

/-- Claim C1 (counterexample): the string "a\n" contains a character
(the newline) outside `[A-Za-z0-9_]`, yet `validate_identifier`
succeeds on it, because CPython's `$` also matches just before a
trailing newline.  This refutes "for every string containing any
character outside [A-Za-z0-9_] ... it fails". -/
theorem validate_identifier_newline_counterexample :
    validate_identifier (.str "a\n") = .ok () ∧
      ¬ (∀ c ∈ ("a\n".data), isWordChar c) := by
  constructor
  · rfl
  · intro h
    have := h '\n' (by decide)
    simp [isWordChar] at this

/-- Claim C1 (amended): `validate_identifier` succeeds on a string
exactly when it is one or more `[A-Za-z0-9_]` characters optionally
followed by a single trailing newline; in particular every non-empty
all-class string succeeds, the empty string fails, a non-(str/int/float)
argument fails, and an int succeeds exactly when its decimal rendering
is all-class (i.e. it is non-negative). -/
theorem validate_identifier_spec :
    (∀ s : String, validate_identifier (.str s) = .ok () ↔ identAccepted s) ∧
      validate_identifier (.str "") = .error (.valueError "Invalid identifier. Identifiers must be alphanumeric or underscore characters only.") ∧
      validate_identifier .other = .error (.valueError "Invalid identifier. Identifiers must be strings.") ∧
      (∀ n : Int, validate_identifier (.intVal n) = .ok () ↔ identAccepted (toString n)) := by
  exact ⟨validate_identifier_str_iff, rfl, rfl, validate_identifier_int_iff⟩

/-! ## Query builder (src/src/database/query_builder.py)

Builder state mirrors the Python object: `_table_name`, `_query` and the
`parameters` dict (an association list in insertion order; parameter
values are carried as their string renderings, which is all the claims
inspect). -/

/-- Python `dict` assignment `d[k] = v`: replace the value at an
existing key in place, else append a new entry. -/
def dictSet : List (String × String) → String → String → List (String × String)
  | [], k, v => [(k, v)]
  | p :: t, k, v => if p.1 == k then (k, v) :: t else p :: dictSet t k v

/-- Python `d.update(other)`: assign every pair of `other` in order. -/
def dictUpdate (d : List (String × String)) (other : List (String × String)) :
    List (String × String) :=
  other.foldl (fun acc kv => dictSet acc kv.1 kv.2) d

/-- Python `d.get(k)` / `d[k]` lookup. -/
def dictGet (d : List (String × String)) (k : String) : Option String :=
  (d.find? (fun p => p.1 == k)).map Prod.snd

/-- Builder state of the `Query` class hierarchy. -/
structure QueryState where
  table_name : String
  query : String
  parameters : List (String × String)
deriving DecidableEq, Repr

/-- `Query.__init__` (query_builder.py:73-78): validates the table name,
then starts with an empty statement and no parameters. -/
def Query_init (table_name : String) : Except PyErr QueryState := do
  let _ ← validate_identifier (.str table_name)
  .ok { table_name := table_name, query := "", parameters := [] }

/-- The `query` property: the assembled template terminated with `;`. -/
def queryProp (st : QueryState) : String :=
  st.query ++ ";"

/-- Python `s.replace("_", "")` as used by `CanBeFiltered.where`. -/
def stripUnderscores (s : String) : String :=
  ⟨s.data.filter (fun c => c != '_')⟩

/-- Python `str.isalnum`: non-empty and every character alphanumeric
(the call sites only ever see ASCII, where Lean's `Char.isAlphanum`
agrees with CPython). -/
def pyIsalnum (s : String) : Bool :=
  !s.data.isEmpty && s.data.all Char.isAlphanum

/-- `' AND '.join(f"\x7bkey\x7d = :\x7bkey\x7d" for key in conditions)`. -/
def joinConditionPreds (conds : List (String × String)) : String :=
  String.intercalate " AND " (conds.map (fun kv => kv.1 ++ " = :" ++ kv.1))

/-- The list comprehension `[SQLValidator.validate_identifier(key) for
key in conditions.keys()]`: first invalid key raises. -/
def validateKeys : List String → Except PyErr Unit
  | [] => .ok ()
  | k :: ks => do
      let _ ← validate_identifier (.str k)
      validateKeys ks

/-- `CanBeFiltered.where` (query_builder.py:219-251).  `where` is a Lean
keyword, hence the name.  Python truthiness: an empty dict or empty
string argument counts as absent. -/
def whereClause (st : QueryState) (conditions : List (String × String))
    (column : Option String) (value : Option String) : Except PyErr QueryState :=
  if conditions ≠ [] then do
    let _ ← validateKeys (conditions.map Prod.fst)
    if !(conditions.all (fun kv => pyIsalnum (stripUnderscores kv.1))) then
      .error (.queryBuilderException "Invalid column name provided.")
    else
      .ok { st with
        query := st.query ++ " WHERE " ++ joinConditionPreds conditions
        parameters := dictUpdate st.parameters conditions }
  else
    match column, value with
    | some c, some v =>
      if c ≠ "" ∧ v ≠ "" then do
        let _ ← validate_identifier (.str c)
        .ok { st with
          query := st.query ++ " WHERE " ++ c ++ " = :" ++ c
          parameters := dictSet st.parameters c v }
      else .error (.queryBuilderException "No conditions provided for where clause.")
    | _, _ => .error (.queryBuilderException "No conditions provided for where clause.")

/-- `SQLValidator.validate_order` (query_builder.py:41-45). -/
def validate_order (order : String) : Except PyErr Unit :=
  if ["ASC", "DESC", "RANDOM"].contains order.toUpper then .ok ()
  else .error (.valueError "Invalid order direction.")

/-- `CanBeOrdered.order_by` (query_builder.py:122-132). -/
def order_by (st : QueryState) (column direction : String) : Except PyErr QueryState := do
  let _ ← validate_identifier (.str column)
  let _ ← validate_order direction
  if ["ASC", "DESC"].contains direction.toUpper then
    .ok { st with
      parameters := dictSet st.parameters "order"
        (st.query ++ " ORDER BY " ++ column ++ " " ++ direction)
      query := st.query ++ " :order" }
  else if direction.toUpper == "RANDOM" then
    .ok { st with
      parameters := dictSet st.parameters "order" (st.query ++ " ORDER BY RANDOM()")
      query := st.query ++ " :order" }
  else .error (.queryBuilderException "Invalid column name or direction provided.")

/-- `CanBeLimited.limit` (query_builder.py:163-186).  Note the CPython
truthiness in `if offset and offset > 0` / `elif offset and offset < 0`:
`offset = 0` (or `None`) takes neither branch.  The clause text is
recorded in the `"limit"` parameter while the statement template only
gains the `" :limit"` placeholder. -/
def limit (st : QueryState) (limitArg : Int) (offset : Option Int) :
    Except PyErr QueryState :=
  if limitArg > 0 then
    let lparam := st.query ++ " LIMIT " ++ toString limitArg
    match offset with
    | some o =>
      if o > 0 then
        .ok { st with
          parameters := dictSet st.parameters "limit"
            (lparam ++ st.query ++ " OFFSET " ++ toString o)
          query := st.query ++ " :limit" }
      else if o < 0 then
        .error (.queryBuilderException "Offset must be greater than or equal to 0.")
      else
        .ok { st with
          parameters := dictSet st.parameters "limit" lparam
          query := st.query ++ " :limit" }
    | none =>
      .ok { st with
        parameters := dictSet st.parameters "limit" lparam
        query := st.query ++ " :limit" }
  else .error (.queryBuilderException "Limit must be greater than 0.")

/-- `Select.__init__` (query_builder.py:316-341).  Python truthiness
again: a falsy `table_name` fails, falsy `columns`/`conditions`/
`order_by`/`limit` arguments skip the corresponding clause (so
`limit=0` as a constructor argument is skipped, not an error). -/
def Select_init (table_name : Option String) (columns : List String)
    (conditions : List (String × String)) (order_arg : Option String)
    (limit_arg : Option Int) (offset : Option Int) : Except PyErr QueryState :=
  match table_name with
  | none => .error (.queryBuilderException "No table name provided for select query.")
  | some t =>
    if t = "" then .error (.queryBuilderException "No table name provided for select query.")
    else do
      let st ← Query_init t
      let st := { st with query := "SELECT * FROM " ++ t }
      let st := if columns.isEmpty then st
        else { st with query := st.query.replace "*" (String.intercalate ", " columns) }
      let st ← if conditions.isEmpty then pure st else whereClause st conditions none none
      let st ← match order_arg with
        | some ob => if ob = "" then pure st else order_by st ob "ASC"
        | none => pure st
      match limit_arg with
      | some l => if l = 0 then pure st else limit st l offset
      | none => pure st

/-- `Delete.__init__` (query_builder.py:413-420): a falsy `conditions`
argument (absent or empty) raises `QueryBuilderException`; otherwise the
`where` mixin is applied.  This builder has no force-override. -/
def Delete_init (table_name : String) (conditions : Option (List (String × String))) :
    Except PyErr QueryState := do
  let st ← Query_init table_name
  let st := { st with query := "DELETE FROM " ++ table_name }
  match conditions with
  | some cs =>
    if cs = [] then .error (.queryBuilderException "No conditions provided for delete query.")
    else whereClause st cs none none
  | none => .error (.queryBuilderException "No conditions provided for delete query.")

/-! ## Legacy query builder (src/src/database/query_builder/__init__.py)

Only the parts claim C2 cites: the `QueryBuilder.build` /
`Delete.build` pair with its `force_delete` override (`hasattr(self,
"force_delete")` is modelled as a boolean flag, false unless the caller
set the attribute). -/

/-- State of the legacy `QueryBuilder`. -/
structure QBState where
  table_name : String
  query : String
  parameters : List (String × String)
  force_delete : Bool
deriving DecidableEq, Repr

/-- Legacy `QueryBuilder.build` (query_builder/__init__.py:20-25). -/
def QueryBuilder_build (qb : QBState) : Except PyErr (String × List (String × String)) :=
  if qb.table_name = "" then .error (.queryBuilderException "No table name provided.")
  else .ok (qb.query.replace ":table_name" qb.table_name, qb.parameters)

/-- Legacy `Delete.main` (query_builder/__init__.py:122-127). -/
def DeleteQB_main (qb : QBState) : Except PyErr QBState :=
  if qb.query ≠ "" then .error (.queryBuilderException "Query already exists.")
  else .ok { qb with query := "DELETE FROM :table_name" }

/-- Legacy `Delete.build` (query_builder/__init__.py:129-133): refuses
to build with no parameters unless `force_delete` was explicitly set. -/
def DeleteQB_build (qb : QBState) : Except PyErr (String × List (String × String)) :=
  if qb.parameters = [] ∧ qb.force_delete = false then
    .error (.queryBuilderException "No conditions provided. Either provide conditions or use force_delete.")
  else QueryBuilder_build qb

/-! ## Substring search and dictionary lemmas used by the builder claims -/

/-- Naive substring occurrence test over character lists. -/
def containsSubList : List Char → List Char → Bool
  | [], needle => needle.isEmpty
  | c :: t, needle => needle.isPrefixOf (c :: t) || containsSubList t needle

/-- `needle` occurs somewhere in `hay`. -/
def strContainsSub (hay needle : String) : Bool :=
  containsSubList hay.data needle.data

theorem isPrefixOf_append_self (l rest : List Char) : l.isPrefixOf (l ++ rest) = true := by
  induction l with
  | nil => simp [List.isPrefixOf]
  | cons a t ih => simp [List.isPrefixOf, ih]

theorem containsSubList_nil_needle (hay : List Char) : containsSubList hay [] = true := by
  cases hay <;> simp [containsSubList, List.isPrefixOf]

theorem containsSubList_self_append (needle rest : List Char) :
    containsSubList (needle ++ rest) needle = true := by
  cases needle with
  | nil => simpa using containsSubList_nil_needle rest
  | cons a m =>
    show containsSubList (a :: (m ++ rest)) (a :: m) = true
    have := isPrefixOf_append_self (a :: m) rest
    simp only [containsSubList]
    rw [List.cons_append] at this
    simp [this]

theorem containsSubList_cons (c : Char) (hay needle : List Char)
    (h : containsSubList hay needle = true) : containsSubList (c :: hay) needle = true := by
  simp [containsSubList, h]

theorem containsSubList_append_left (pre hay needle : List Char)
    (h : containsSubList hay needle = true) : containsSubList (pre ++ hay) needle = true := by
  induction pre with
  | nil => simpa using h
  | cons c t ih => simpa using containsSubList_cons c _ _ ih

theorem dictGet_dictSet (d : List (String × String)) (k v : String) :
    dictGet (dictSet d k v) k = some v := by
  induction d with
  | nil => simp [dictSet, dictGet, List.find?]
  | cons p t ih =>
    by_cases h : p.1 == k
    · simp [dictSet, h, dictGet, List.find?]
    · simp only [dictSet, h, if_false, Bool.false_eq_true]
      simpa [dictGet, List.find?, h] using ih

theorem dictSet_of_not_mem (d : List (String × String)) (k v : String)
    (h : ∀ p ∈ d, (p.1 == k) = false) : dictSet d k v = d ++ [(k, v)] := by
  induction d with
  | nil => rfl
  | cons p t ih =>
    have hp := h p (by simp)
    simp only [dictSet, hp, Bool.false_eq_true, if_false, List.cons_append, List.cons.injEq,
      true_and]
    exact ih (fun q hq => h q (by simp [hq]))

theorem dictUpdate_eq_append : ∀ (conds acc : List (String × String)),
    (∀ kv ∈ conds, ∀ p ∈ acc, (p.1 == kv.1) = false) →
    (conds.map Prod.fst).Nodup → dictUpdate acc conds = acc ++ conds := by
  intro conds
  induction conds with
  | nil => intro acc _ _; simp [dictUpdate]
  | cons kv rest ih =>
    intro acc hdisj hnodup
    show dictUpdate (dictSet acc kv.1 kv.2) rest = acc ++ kv :: rest
    rw [dictSet_of_not_mem acc kv.1 kv.2 (fun p hp => hdisj kv (by simp) p hp)]
    have hkv : (kv.1, kv.2) = kv := rfl
    rw [hkv]
    have hnd := hnodup
    simp only [List.map_cons, List.nodup_cons] at hnd
    have hrec := ih (acc ++ [kv]) ?_ hnd.2
    · rw [hrec, List.append_assoc]
      rfl
    · intro kv' hkv' p hp
      rcases List.mem_append.mp hp with hpa | hpk
      · exact hdisj kv' (by simp [hkv']) p hpa
      · have hpe : p = kv := by simpa using hpk
        rw [hpe]
        have hne2 : kv.1 ≠ kv'.1 := fun he => hnd.1 (he ▸ List.mem_map_of_mem Prod.fst hkv')
        simpa using hne2

/-! ## Claims C2 and C3 -/

/-- Keys accepted end-to-end by `CanBeFiltered.where`: a valid
identifier (non-empty, all `[A-Za-z0-9_]`) that also survives the extra
`key.replace("_", "").isalnum()` check, i.e. has at least one
non-underscore character. -/
def goodConditionKey (k : String) : Prop :=
  k.data ≠ [] ∧ (∀ c ∈ k.data, isWordChar c) ∧ ∃ c ∈ k.data, c ≠ '_'

theorem validateKeys_ok (ks : List String)
    (h : ∀ k ∈ ks, k.data ≠ [] ∧ ∀ c ∈ k.data, isWordChar c) : validateKeys ks = .ok () := by
  induction ks with
  | nil => rfl
  | cons k t ih =>
    have hv : validate_identifier (.str k) = .ok () :=
      (validate_identifier_str_iff k).mpr (Or.inl (h k (by simp)))
    have ht := ih (fun k' hk' => h k' (by simp [hk']))
    show (do
      let _ ← validate_identifier (.str k)
      validateKeys t) = Except.ok ()
    rw [hv]
    simpa using ht

theorem pyIsalnum_strip_of_goodKey (k : String) (h : goodConditionKey k) :
    pyIsalnum (stripUnderscores k) = true := by
  obtain ⟨hne, hall, c, hc, hcne⟩ := h
  have hmem : c ∈ k.data.filter (fun c => c != '_') :=
    List.mem_filter.mpr ⟨hc, by simpa using hcne⟩
  show (!(k.data.filter (fun c => c != '_')).isEmpty &&
      (k.data.filter (fun c => c != '_')).all Char.isAlphanum) = true
  refine (Bool.and_eq_true _ _).mpr ⟨?_, ?_⟩
  · simpa [List.isEmpty_iff] using List.ne_nil_of_mem hmem
  · rw [List.all_eq_true]
    intro x hx
    have hx' := List.mem_filter.mp hx
    have hw := hall x hx'.1
    have hxne : (x == '_') = false := by simpa using hx'.2
    have hw' : x.isAlphanum = true ∨ x = '_' := by simpa [isWordChar] using hw
    rcases hw' with ha | hu
    · exact ha
    · rw [hu] at hxne
      simp at hxne

theorem whereClause_conditions_ok (st : QueryState) (conds : List (String × String))
    (hne : conds ≠ []) (hkeys : ∀ kv ∈ conds, goodConditionKey kv.1) :
    whereClause st conds none none = .ok { st with
      query := st.query ++ " WHERE " ++ joinConditionPreds conds
      parameters := dictUpdate st.parameters conds } := by
  unfold whereClause
  rw [if_pos hne]
  have hvk : validateKeys (conds.map Prod.fst) = .ok () := by
    apply validateKeys_ok
    intro k hk
    obtain ⟨kv, hkv, hfst⟩ := List.mem_map.mp hk
    obtain ⟨h1, h2, _⟩ := hkeys kv hkv
    exact ⟨hfst ▸ h1, hfst ▸ h2⟩
  have hall : conds.all (fun kv => pyIsalnum (stripUnderscores kv.1)) = true := by
    rw [List.all_eq_true]
    exact fun kv hkv => pyIsalnum_strip_of_goodKey kv.1 (hkeys kv hkv)
  rw [hvk]
  simp only [hall, Bool.not_true, Bool.false_eq_true, if_false]
  rfl

/-- Claim C2 (counterexample): the all-underscore key `"___"` passes
identifier validation, yet constructing `Delete("tasks",
conditions=\x7b"___": "1"\x7d)` fails with `QueryBuilderException`
because of the extra `key.replace("_", "").isalnum()` check in `where`.
This refutes "constructing it with any non-empty condition map
succeeds". -/
theorem delete_underscore_key_counterexample :
    validate_identifier (.str "___") = .ok () ∧
      Delete_init "tasks" (some [("___", "1")]) =
        .error (.queryBuilderException "Invalid column name provided.") :=
  ⟨rfl, rfl⟩

/-- Claim C2 (amended): a DELETE builder with no conditions (absent or
empty map) and no force-override fails with `QueryBuilderException` (the
modern `Delete` has no override at all; the legacy `Delete.build` fails
whenever parameters are empty and `force_delete` was not set).  With a
non-empty condition map it succeeds — provided each key is a valid
identifier with at least one non-underscore character (all-underscore
keys are rejected) — and the statement's WHERE clause is the `AND`-join
of one `key = :key` predicate per provided key, the parameter map
binding exactly the provided pairs. -/
theorem delete_build_spec :
    (∀ t : String, validate_identifier (.str t) = .ok () →
      Delete_init t none =
          .error (.queryBuilderException "No conditions provided for delete query.") ∧
        Delete_init t (some []) =
          .error (.queryBuilderException "No conditions provided for delete query.")) ∧
      (∀ (t : String) (conds : List (String × String)),
        validate_identifier (.str t) = .ok () →
        conds ≠ [] →
        (∀ kv ∈ conds, goodConditionKey kv.1) →
        (conds.map Prod.fst).Nodup →
        Delete_init t (some conds) = .ok {
          table_name := t
          query := "DELETE FROM " ++ t ++ " WHERE " ++ joinConditionPreds conds
          parameters := conds }) ∧
      (∀ qb : QBState, qb.parameters = [] → qb.force_delete = false →
        DeleteQB_build qb =
          .error (.queryBuilderException
            "No conditions provided. Either provide conditions or use force_delete.")) := by
  refine ⟨?_, ?_, ?_⟩
  · intro t hval
    constructor
    · unfold Delete_init Query_init
      rw [hval]
      rfl
    · unfold Delete_init Query_init
      rw [hval]
      rfl
  · intro t conds hval hne hkeys hnodup
    have hred : Delete_init t (some conds) =
        if conds = [] then
          Except.error (PyErr.queryBuilderException "No conditions provided for delete query.")
        else
          whereClause { table_name := t, query := "DELETE FROM " ++ t, parameters := [] }
            conds none none := by
      unfold Delete_init Query_init
      rw [hval]
      rfl
    rw [hred, if_neg hne, whereClause_conditions_ok _ conds hne hkeys,
      dictUpdate_eq_append conds [] (by simp) hnodup]
    rfl
  · intro qb h1 h2
    unfold DeleteQB_build
    rw [if_pos ⟨h1, h2⟩]

/-- Concrete instance of `delete_build_spec`: deleting from `tasks`
with no conditions fails, deleting with `category_id = 3` builds the
expected WHERE clause, and the legacy builder refuses an unforced
parameterless delete. -/
theorem delete_build_spec_witness :
    Delete_init "tasks" none =
        .error (.queryBuilderException "No conditions provided for delete query.") ∧
      Delete_init "tasks" (some [("category_id", "3")]) = .ok {
        table_name := "tasks"
        query := "DELETE FROM tasks WHERE category_id = :category_id"
        parameters := [("category_id", "3")] } ∧
      DeleteQB_build {
          table_name := "tasks"
          query := "DELETE FROM :table_name"
          parameters := []
          force_delete := false } =
        .error (.queryBuilderException
          "No conditions provided. Either provide conditions or use force_delete.") := by
  refine ⟨(delete_build_spec.1 "tasks" rfl).1, ?_, delete_build_spec.2.2 _ rfl rfl⟩
  have h := delete_build_spec.2.1 "tasks" [("category_id", "3")] rfl (by simp)
    (by
      intro kv hkv
      have hkv' : kv = ("category_id", "3") := by simpa using hkv
      subst hkv'
      exact ⟨by decide, by decide, ⟨'c', by decide, by decide⟩⟩)
    (by simp)
  rw [h]
  rfl

/-- Claim C3 (counterexample): `limit(5, offset=2)` on a SELECT builder
succeeds, but the finished query (the `query` property) is
`"SELECT * FROM tasks :limit;"`: the text `LIMIT 5` does not occur in
it — the clause text is stored in the bound parameter `"limit"`
instead.  This refutes "the finished query containing both the clause
LIMIT 5 and an offset clause". -/
theorem limit_clause_location_counterexample :
    ∃ st st', Select_init (some "tasks") [] [] none none none = .ok st ∧
      limit st 5 (some 2) = .ok st' ∧
      queryProp st' = "SELECT * FROM tasks :limit;" ∧
      strContainsSub (queryProp st') "LIMIT 5" = false ∧
      dictGet st'.parameters "limit" =
        some "SELECT * FROM tasks LIMIT 5SELECT * FROM tasks OFFSET 2" := by
  refine ⟨{ table_name := "tasks", query := "SELECT * FROM tasks", parameters := [] },
    { table_name := "tasks", query := "SELECT * FROM tasks :limit",
      parameters := [("limit", "SELECT * FROM tasks LIMIT 5SELECT * FROM tasks OFFSET 2")] },
    ?_, ?_, ?_, ?_, ?_⟩ <;> rfl

/-- Claim C3 (amended): on any builder state, `limit(0)` and
`limit(-1)` fail, `limit(5, offset=-1)` fails, and `limit(5, offset=2)`
succeeds; the texts `LIMIT 5` and `OFFSET 2` are recorded in the bound
parameter `"limit"` (spliced at the `:limit` placeholder appended to
the statement template), not in the query string itself. -/
theorem limit_spec :
    ∀ st : QueryState,
      limit st 0 none = .error (.queryBuilderException "Limit must be greater than 0.") ∧
      limit st (-1) none = .error (.queryBuilderException "Limit must be greater than 0.") ∧
      limit st 5 (some (-1)) =
        .error (.queryBuilderException "Offset must be greater than or equal to 0.") ∧
      ∃ st', limit st 5 (some 2) = .ok st' ∧
        st'.query = st.query ++ " :limit" ∧
        ∃ v, dictGet st'.parameters "limit" = some v ∧
          strContainsSub v "LIMIT 5" = true ∧ strContainsSub v "OFFSET 2" = true := by
  intro st
  refine ⟨by norm_num [limit], by norm_num [limit], by norm_num [limit], ?_⟩
  have heq : limit st 5 (some 2) = .ok ⟨st.table_name, st.query ++ " :limit",
      dictSet st.parameters "limit"
        ((st.query ++ " LIMIT " ++ toString (5 : Int)) ++ st.query ++ " OFFSET " ++
          toString (2 : Int))⟩ := by
    norm_num [limit]
  refine ⟨_, heq, rfl, _, dictGet_dictSet _ _ _, ?_, ?_⟩
  · unfold strContainsSub
    have h5 : (toString (5 : Int)) = "5" := rfl
    have h2 : (toString (2 : Int)) = "2" := rfl
    rw [h5, h2]
    simp only [String.data_append, List.append_assoc]
    apply containsSubList_append_left
    have hsplit : " LIMIT ".data ++ ("5".data ++ (st.query.data ++ (" OFFSET ".data ++ "2".data))) =
        ' ' :: ("LIMIT 5".data ++ (st.query.data ++ (" OFFSET ".data ++ "2".data))) := rfl
    rw [hsplit]
    exact containsSubList_cons _ _ _ (containsSubList_self_append _ _)
  · unfold strContainsSub
    have h5 : (toString (5 : Int)) = "5" := rfl
    have h2 : (toString (2 : Int)) = "2" := rfl
    rw [h5, h2]
    simp only [String.data_append, List.append_assoc]
    apply containsSubList_append_left
    apply containsSubList_append_left
    apply containsSubList_append_left
    apply containsSubList_append_left
    have hsplit : " OFFSET ".data ++ "2".data = ' ' :: ("OFFSET 2".data ++ []) := rfl
    rw [hsplit]
    exact containsSubList_cons _ _ _ (containsSubList_self_append _ _)

/-! ## Task model (src/src/models/task.py, src/src/models/reminder.py)

Datetimes are integer epoch seconds; `timedelta(minutes=30)` is 1800
seconds, `timedelta(hours=12)` is 43200 seconds. -/

/-- `Reminder` columns the claims inspect (src/src/models/reminder.py). -/
structure Reminder where
  reminder_time : Int
  is_active : Bool
  is_sent : Bool
deriving DecidableEq, Repr

/-- `Task` columns and relations the claims inspect.  `category` holds
the name of the joined active category, if any. -/
structure Task where
  name : String
  description : Option String
  start_time : Option Int
  due_time : Option Int
  completed_at : Option Int
  priority : Int
  category : Option String
  reminders : List Reminder
  created_at : Int
deriving DecidableEq, Repr

/-- `Task.mark_as_completed`: sets `completed_at = datetime.now()`. -/
def mark_as_completed (t : Task) (now : Int) : Task :=
  { t with completed_at := some now }

/-- `Task.mark_as_incomplete`. -/
def mark_as_incomplete (t : Task) : Task :=
  { t with completed_at := none }

/-- `Task.update_start_time`: unconditional setter. -/
def update_start_time (t : Task) (start_time : Int) : Task :=
  { t with start_time := some start_time }

/-- `Task.update_due_time`: unconditional setter. -/
def update_due_time (t : Task) (due_time : Int) : Task :=
  { t with due_time := some due_time }

/-- The `before_insert` hook (task.py:225-236): the default reminder is
30 minutes before `due_time`, or 12 hours from now when no due time is
set; it is created active and unsent. -/
def default_reminder_before_insert (t : Task) (now : Int) : Reminder :=
  { reminder_time :=
      match t.due_time with
      | some d => d - 30 * 60
      | none => now + 12 * 60 * 60
    is_active := true
    is_sent := false }

/-- Inserting a task: the `before_insert` hook stashes the default
reminder data and the `after_flush` hook (task.py:239-254) appends
exactly one `Reminder` built from it to the task's reminder
collection. -/
def insert_task (t : Task) (now : Int) : Task :=
  { t with reminders := t.reminders ++ [default_reminder_before_insert t now] }

/-- Claim C5: inserting a freshly constructed task (empty reminder
collection) with `due_time = T` yields exactly one reminder, at
`T - 30min`; inserting one with no due time yields exactly one
reminder, at `now + 12h` — created by the insert-time hooks, active
and unsent. -/
theorem insert_task_default_reminder (t : Task) (now : Int) (hfresh : t.reminders = []) :
    (∀ T, t.due_time = some T →
        (insert_task t now).reminders =
          [{ reminder_time := T - 30 * 60, is_active := true, is_sent := false }]) ∧
      (t.due_time = none →
        (insert_task t now).reminders =
          [{ reminder_time := now + 12 * 60 * 60, is_active := true, is_sent := false }]) := by
  constructor
  · intro T hT
    simp [insert_task, default_reminder_before_insert, hfresh, hT]
  · intro hT
    simp [insert_task, default_reminder_before_insert, hfresh, hT]

/-- Sample task with a due time, used by concrete instances. -/
def sampleDatedTask : Task :=
  { name := "a"
    description := none
    start_time := none
    due_time := some 10000
    completed_at := none
    priority := 3
    category := none
    reminders := []
    created_at := 0 }

/-- Sample task with no due time, used by concrete instances. -/
def sampleUndatedTask : Task :=
  { sampleDatedTask with name := "b", due_time := none }

/-- Concrete instance of `insert_task_default_reminder`: a task due at
10000 gets one reminder at 8200; an undated task inserted at time 500
gets one reminder at 43700. -/
theorem insert_task_default_reminder_witness :
    (insert_task sampleDatedTask 500).reminders =
      [{ reminder_time := 8200, is_active := true, is_sent := false }] ∧
    (insert_task sampleUndatedTask 500).reminders =
      [{ reminder_time := 43700, is_active := true, is_sent := false }] := by
  constructor
  · have h := (insert_task_default_reminder sampleDatedTask 500 rfl).1 10000 rfl
    simpa using h
  · have h := (insert_task_default_reminder sampleUndatedTask 500 rfl).2 rfl
    simpa using h

/-- The temporal invariant of claim C7: `due_time` not before
`start_time` when both are set, and `completed_at`, if set, not before
`created_at`. -/
def task_time_invariant (t : Task) : Bool :=
  (match t.start_time, t.due_time with
   | some s, some d => decide (s ≤ d)
   | _, _ => true) &&
  (match t.completed_at with
   | some c => decide (t.created_at ≤ c)
   | none => true)

/-- Sample task whose start and due times are both 100. -/
def sampleTimedTask : Task :=
  { name := "t"
    description := none
    start_time := some 100
    due_time := some 100
    completed_at := none
    priority := 3
    category := none
    reminders := []
    created_at := 0 }

/-- Claim C7 (counterexample): `update_due_time` performs no
validation, so it can move a task from an invariant-satisfying state
(`start_time = due_time = 100`) to one with `due_time = 50 <
start_time = 100`; the operation does not preserve the invariant. -/
theorem task_invariant_not_preserved_counterexample :
    task_time_invariant sampleTimedTask = true ∧
      task_time_invariant (update_due_time sampleTimedTask 50) = false := by
  constructor <;> rfl

/-- Claim C7 (amended): no task operation enforces the temporal
invariant — the mutators are unconditional setters, so the invariant
holds after a mutation exactly when the new field value happens to
satisfy it: `update_due_time t v` satisfies it iff `v` is not before
the start time and the completed/created ordering already held;
`update_start_time t v` iff `v` is not after the due time and the
completed/created ordering already held; `mark_as_completed t now` iff
the start/due ordering already held and `created_at ≤ now`. -/
theorem task_mutators_unchecked :
    (∀ (t : Task) (v : Int),
      task_time_invariant (update_due_time t v) = true ↔
        ((∀ s, t.start_time = some s → s ≤ v) ∧
          (∀ c, t.completed_at = some c → t.created_at ≤ c))) ∧
      (∀ (t : Task) (v : Int),
        task_time_invariant (update_start_time t v) = true ↔
          ((∀ d, t.due_time = some d → v ≤ d) ∧
            (∀ c, t.completed_at = some c → t.created_at ≤ c))) ∧
      (∀ (t : Task) (now : Int),
        task_time_invariant (mark_as_completed t now) = true ↔
          ((∀ s d, t.start_time = some s → t.due_time = some d → s ≤ d) ∧
            t.created_at ≤ now)) := by
  refine ⟨?_, ?_, ?_⟩
  · intro t v
    obtain ⟨nm, ds, s0, d0, c0, p0, cat0, rm0, cr0⟩ := t
    cases s0 <;> cases c0 <;>
      simp [task_time_invariant, update_due_time, Bool.and_eq_true, decide_eq_true_eq]
  · intro t v
    obtain ⟨nm, ds, s0, d0, c0, p0, cat0, rm0, cr0⟩ := t
    cases d0 <;> cases c0 <;>
      simp [task_time_invariant, update_start_time, Bool.and_eq_true, decide_eq_true_eq]
  · intro t now
    obtain ⟨nm, ds, s0, d0, c0, p0, cat0, rm0, cr0⟩ := t
    cases s0 <;> cases d0 <;>
      simp [task_time_invariant, mark_as_completed, Bool.and_eq_true, decide_eq_true_eq]

/-! ## Recurrence model (src/src/models/recurrence.py) -/

/-- `Recurrence` columns (`end` is a Lean keyword, stored as
`end_time`). -/
structure Recurrence where
  task_id : Int
  interval : Int
  start : Int
  end_time : Option Int
  is_active : Bool
deriving DecidableEq, Repr

/-- The loop body of `Recurrence.__next__` (recurrence.py:29-33):
`while self.start < now: self.start += self.interval`, with explicit
fuel bounding the number of iterations; `none` means the loop has not
finished within `fuel` iterations. -/
def next_loop (interval now : Int) : Nat → Int → Option Int
  | 0, start => if start < now then none else some start
  | fuel + 1, start =>
    if start < now then next_loop interval now fuel (start + interval) else some start

/-- `Recurrence.__next__`: runs the loop, stores the final value back
into `start` and returns it. -/
def recurrence_next (r : Recurrence) (now : Int) (fuel : Nat) : Option (Int × Recurrence) :=
  match next_loop r.interval now fuel r.start with
  | some v => some (v, { r with start := v })
  | none => none

theorem next_loop_of_ge (interval now : Int) (fuel : Nat) (start : Int) (h : ¬ start < now) :
    next_loop interval now fuel start = some start := by
  cases fuel <;> simp [next_loop, h]

theorem next_loop_spec (interval now : Int) (hpos : 0 < interval) :
    ∀ (fuel : Nat) (start : Int), start ≤ now → now - start ≤ (fuel : Int) →
      ∃ v, next_loop interval now fuel start = some v ∧ now ≤ v ∧
        (∃ k : Nat, v = start + k * interval) ∧
        (∀ j : Nat, now ≤ start + j * interval → v ≤ start + j * interval) := by
  intro fuel
  induction fuel with
  | zero =>
    intro start h1 h2
    have hse : start = now := by simpa using le_antisymm h1 (by omega)
    refine ⟨start, next_loop_of_ge _ _ _ _ (by omega), by omega, ⟨0, by simp⟩, ?_⟩
    intro j hj
    exact hse.trans_le hj
  | succ n ih =>
    intro start h1 h2
    by_cases hlt : start < now
    · by_cases hlt2 : start + interval < now
      · obtain ⟨v, hv, hnv, ⟨k, hk⟩, hmin⟩ := ih (start + interval) (le_of_lt hlt2)
          (by push_cast at h2 ⊢; omega)
        refine ⟨v, ?_, hnv, ⟨k + 1, ?_⟩, ?_⟩
        · simp only [next_loop]
          rw [if_pos hlt]
          exact hv
        · rw [hk]
          push_cast
          ring
        · intro j hj
          match j with
          | 0 =>
            exfalso
            simp at hj
            omega
          | Nat.succ m =>
            have he : start + ((m : Int) + 1) * interval = (start + interval) + (m : Int) * interval := by
              ring
            have hj' : now ≤ (start + interval) + (m : Int) * interval := by
              rw [← he]
              push_cast at hj ⊢
              linarith
            have := hmin m hj'
            push_cast
            linarith [he ▸ this]
      · refine ⟨start + interval, ?_, by omega, ⟨1, by push_cast; ring⟩, ?_⟩
        · simp only [next_loop]
          rw [if_pos hlt]
          exact next_loop_of_ge _ _ _ _ hlt2
        · intro j hj
          match j with
          | 0 =>
            exfalso
            simp at hj
            omega
          | Nat.succ m =>
            have hm : (0 : Int) ≤ (m : Int) * interval :=
              mul_nonneg (Int.natCast_nonneg m) (le_of_lt hpos)
            push_cast
            linarith
    · refine ⟨start, next_loop_of_ge _ _ _ _ hlt, by omega, ⟨0, by simp⟩, ?_⟩
      intro j hj
      have hm : (0 : Int) ≤ (j : Int) * interval :=
        mul_nonneg (Int.natCast_nonneg j) (le_of_lt hpos)
      linarith

/-- Claim C6: for a recurrence with positive interval whose start is
not in the future, `next()` (run with enough fuel, here `now - start`
iterations) terminates, stores into `start`, and returns the smallest
value `start + k·interval` that is `≥ now`. -/
theorem recurrence_next_spec (r : Recurrence) (now : Int)
    (hpos : 0 < r.interval) (hstart : r.start ≤ now) :
    ∃ v, recurrence_next r now ((now - r.start).toNat) = some (v, { r with start := v }) ∧
      now ≤ v ∧ (∃ k : Nat, v = r.start + k * r.interval) ∧
      (∀ j : Nat, now ≤ r.start + j * r.interval → v ≤ r.start + j * r.interval) := by
  obtain ⟨v, hv, h1, h2, h3⟩ := next_loop_spec r.interval now hpos ((now - r.start).toNat)
    r.start hstart (Int.self_le_toNat _)
  exact ⟨v, by simp [recurrence_next, hv], h1, h2, h3⟩

/-- Sample daily recurrence starting three days before `now = 259200`. -/
def sampleDailyRecurrence : Recurrence :=
  { task_id := 1
    interval := 86400
    start := 0
    end_time := none
    is_active := true }

/-- Concrete instance of `recurrence_next_spec`, the spec's own
numbers: interval one day (86400 s), start three days in the past
(start 0, now 259200). -/
theorem recurrence_next_spec_witness :
    (0 : Int) < sampleDailyRecurrence.interval ∧ sampleDailyRecurrence.start ≤ 259200 ∧
      (∃ v, recurrence_next sampleDailyRecurrence 259200
            (((259200 : Int) - sampleDailyRecurrence.start).toNat) =
          some (v, { sampleDailyRecurrence with start := v }) ∧
        (259200 : Int) ≤ v ∧ (∃ k : Nat, v = sampleDailyRecurrence.start + k * sampleDailyRecurrence.interval) ∧
        (∀ j : Nat, (259200 : Int) ≤ sampleDailyRecurrence.start + j * sampleDailyRecurrence.interval →
          v ≤ sampleDailyRecurrence.start + j * sampleDailyRecurrence.interval)) :=
  ⟨by decide, by decide,
    recurrence_next_spec sampleDailyRecurrence 259200 (by decide) (by decide)⟩

/-- Claim C10: the advancement loop terminates for every interval of at
least one second (some fuel suffices for any start), and for a
non-positive interval with start strictly before now it never
terminates (no amount of fuel finishes the loop). -/
theorem next_loop_termination :
    (∀ interval start now : Int, 1 ≤ interval →
      ∃ (fuel : Nat) (v : Int), next_loop interval now fuel start = some v) ∧
      (∀ interval start now : Int, interval ≤ 0 → start < now →
        ∀ fuel : Nat, next_loop interval now fuel start = none) := by
  constructor
  · intro interval start now h
    by_cases hlt : start < now
    · obtain ⟨v, hv, -, -, -⟩ := next_loop_spec interval now (by omega) ((now - start).toNat)
        start (by omega) (Int.self_le_toNat _)
      exact ⟨_, v, hv⟩
    · exact ⟨0, start, next_loop_of_ge _ _ _ _ hlt⟩
  · intro interval start now hneg hlt fuel
    induction fuel generalizing start with
    | zero => simp [next_loop, hlt]
    | succ n ih =>
      simp only [next_loop]
      rw [if_pos hlt]
      exact ih (start + interval) (by omega)

/-- Concrete instance of `next_loop_termination`: a one-day interval
terminates; a zero interval with start 0 before now 5 returns `none`
at fuel 7 (and, by the theorem, at every fuel). -/
theorem next_loop_termination_witness :
    (1 : Int) ≤ 86400 ∧
      (∃ (fuel : Nat) (v : Int), next_loop 86400 259200 fuel 0 = some v) ∧
      ((0 : Int) ≤ 0 ∧ (0 : Int) < 5 ∧ next_loop 0 5 7 0 = none) :=
  ⟨by decide, next_loop_termination.1 86400 0 259200 (by decide),
    by decide, by decide, next_loop_termination.2 0 0 5 (by decide) (by decide) 7⟩

/-! ## Startup seeding (src/src/timewise.py:97-151)

`TimeWise._add_initial_records` inserts each seed category, tag and
setting only after an existence check on its name (key for settings)
against the current session state. -/

/-- Seed category rows (`name`, `description`, `is_active`). -/
structure CategoryRow where
  name : String
  description : String
  is_active : Bool
deriving DecidableEq, Repr

/-- Seed tag rows. -/
structure TagRow where
  name : String
  description : String
  is_active : Bool
deriving DecidableEq, Repr

/-- Settings rows (`key`, `value`). -/
structure SettingRow where
  key : String
  value : String
deriving DecidableEq, Repr

/-- The three tables `_add_initial_records` touches. -/
structure TWDatabase where
  categories : List CategoryRow
  tags : List TagRow
  settings : List SettingRow
deriving DecidableEq, Repr

/-- One seeding loop: for each row, query whether a row with the same
key already exists; if not, add (append) it.  The second component
counts the rows actually inserted. -/
def seed_rows {α : Type} (key : α → String) : List α → List α × Nat → List α × Nat
  | [], acc => acc
  | r :: rs, (tbl, n) =>
    if tbl.any (fun x => key x == key r) then seed_rows key rs (tbl, n)
    else seed_rows key rs (tbl ++ [r], n + 1)

/-- `initial_categories` (timewise.py:99-111). -/
def initial_categories : List CategoryRow :=
  [⟨"Other", "Home related tasks", true⟩, ⟨"Work", "Work related tasks", true⟩,
   ⟨"Health", "Health tasks", true⟩, ⟨"Finance", "Finance tasks", true⟩,
   ⟨"Relationship", "Relationship tasks", true⟩, ⟨"Cleaning", "Cleaning tasks", true⟩,
   ⟨"Shopping list", "Shopping tasks", true⟩, ⟨"Errands", "Errands tasks", true⟩,
   ⟨"Travel", "Travel tasks", true⟩, ⟨"Social", "Social tasks", true⟩,
   ⟨"Fitness", "Fitness tasks", true⟩]

/-- `initial_tags` (timewise.py:113-120). -/
def initial_tags : List TagRow :=
  [⟨"Home", "Home tasks", true⟩, ⟨"Bike", "Bike tasks", true⟩,
   ⟨"Running", "Running tasks", true⟩, ⟨"Gym", "Gym tasks", true⟩,
   ⟨"Thea", "Tasks that involve or benefit Thea", true⟩,
   ⟨"Sandra", "Tasks that involve or benefit Sandra", true⟩]

/-- `settings` (timewise.py:122-130). -/
def initial_settings : List SettingRow :=
  [⟨"default_priority", "3"⟩, ⟨"default_category", "1"⟩,
   ⟨"default_sort_method", "by_priority"⟩, ⟨"default_sort_order", "asc"⟩,
   ⟨"default_display_limit", "10"⟩, ⟨"default_display_offset", "0"⟩,
   ⟨"default_display_columns", "id, name, description, category, priority, due_time"⟩]

/-- `TimeWise._add_initial_records`: seed the three tables, guarded by
the existence checks; also reports the number of rows inserted. -/
def add_initial_records (db : TWDatabase) : TWDatabase × Nat :=
  let cats := seed_rows CategoryRow.name initial_categories (db.categories, 0)
  let tags := seed_rows TagRow.name initial_tags (db.tags, 0)
  let sets := seed_rows SettingRow.key initial_settings (db.settings, 0)
  ({ categories := cats.1, tags := tags.1, settings := sets.1 }, cats.2 + tags.2 + sets.2)

theorem seed_rows_grow {α : Type} (key : α → String) :
    ∀ (rows tbl : List α) (n : Nat), ∃ ext, (seed_rows key rows (tbl, n)).1 = tbl ++ ext := by
  intro rows
  induction rows with
  | nil => exact fun tbl n => ⟨[], by simp [seed_rows]⟩
  | cons r rs ih =>
    intro tbl n
    by_cases h : tbl.any (fun x => key x == key r) = true
    · obtain ⟨ext, he⟩ := ih tbl n
      exact ⟨ext, by simp [seed_rows, h, he]⟩
    · obtain ⟨ext, he⟩ := ih (tbl ++ [r]) (n + 1)
      refine ⟨[r] ++ ext, ?_⟩
      simp only [seed_rows, h, if_false, Bool.false_eq_true]
      rw [he, List.append_assoc]

theorem seed_rows_mem_after {α : Type} (key : α → String) :
    ∀ (rows tbl : List α) (n : Nat) (r : α), r ∈ rows →
      (seed_rows key rows (tbl, n)).1.any (fun x => key x == key r) = true := by
  intro rows
  induction rows with
  | nil => intro tbl n r hr; simp at hr
  | cons r0 rs ih =>
    intro tbl n r hr
    rcases List.mem_cons.mp hr with he | hm
    · subst he
      by_cases h : tbl.any (fun x => key x == key r) = true
      · obtain ⟨ext, hext⟩ := seed_rows_grow key rs tbl n
        simp [seed_rows, h, hext, List.any_append]
      · obtain ⟨ext, hext⟩ := seed_rows_grow key rs (tbl ++ [r]) (n + 1)
        simp only [seed_rows, h, if_false, Bool.false_eq_true]
        rw [hext]
        simp [List.any_append]
    · by_cases h : tbl.any (fun x => key x == key r0) = true
      · simpa [seed_rows, h] using ih tbl n r hm
      · simpa [seed_rows, h] using ih (tbl ++ [r0]) (n + 1) r hm

theorem seed_rows_noop {α : Type} (key : α → String) :
    ∀ (rows tbl : List α) (n : Nat),
      (∀ r ∈ rows, tbl.any (fun x => key x == key r) = true) →
      seed_rows key rows (tbl, n) = (tbl, n) := by
  intro rows
  induction rows with
  | nil => intro tbl n _; rfl
  | cons r rs ih =>
    intro tbl n h
    have hr := h r (by simp)
    simp only [seed_rows, hr, if_true]
    exact ih tbl n (fun r' hr' => h r' (by simp [hr']))

theorem seed_rows_idem {α : Type} (key : α → String) (rows tbl : List α) :
    seed_rows key rows ((seed_rows key rows (tbl, 0)).1, 0) =
      ((seed_rows key rows (tbl, 0)).1, 0) :=
  seed_rows_noop key rows _ 0 (fun r hr => seed_rows_mem_after key rows tbl 0 r hr)

/-- Claim C9: running `_add_initial_records` a second time against the
database produced by the first run inserts zero rows and leaves the
database unchanged — every seed row is guarded by an existence check,
so seeding is idempotent. -/
theorem add_initial_records_idempotent (db : TWDatabase) :
    add_initial_records (add_initial_records db).1 = ((add_initial_records db).1, 0) := by
  unfold add_initial_records
  simp only [seed_rows_idem]

/-! ## Startup schema reconciliation (src/src/timewise.py:75-79)

On startup `TimeWise.__init__` lists the live tables once and, for each
table of the declared metadata, creates it when its name is absent.
No other DDL is issued: the repository contains no ALTER TABLE
statement at all. -/

/-- DDL statements the schema step could issue.  `alterAddColumn` is
the statement the claim expects; the code never constructs it. -/
inductive SchemaStmt where
  | createTable (table : String) (columns : List String)
  | alterAddColumn (table column : String)
deriving DecidableEq, Repr

/-- The loop body over the metadata tables, threading the database
state (table name with its column list) and the statements issued. -/
def setup_tables_go (tables : List String) :
    List (String × List String) →
    List (String × List String) × List SchemaStmt →
    List (String × List String) × List SchemaStmt
  | [], acc => acc
  | tc :: rest, acc =>
    if tables.contains tc.1 then setup_tables_go tables rest acc
    else setup_tables_go tables rest
      (acc.1 ++ [tc], acc.2 ++ [SchemaStmt.createTable tc.1 tc.2])

/-- `inspector.get_table_names()` is read once; each metadata table not
in that list is created. -/
def setup_tables (live metadata : List (String × List String)) :
    List (String × List String) × List SchemaStmt :=
  setup_tables_go (live.map Prod.fst) metadata (live, [])

theorem setup_go_stmts (tables : List String) :
    ∀ (rest : List (String × List String)) (acc : List (String × List String) × List SchemaStmt),
      ∃ ext, (setup_tables_go tables rest acc).2 = acc.2 ++ ext ∧
        ∀ s ∈ ext, ∃ tc, tc ∈ rest ∧ s = SchemaStmt.createTable tc.1 tc.2 ∧
          tables.contains tc.1 = false := by
  intro rest
  induction rest with
  | nil => exact fun acc => ⟨[], by simp [setup_tables_go], by simp⟩
  | cons tc rest ih =>
    intro acc
    by_cases h : tables.contains tc.1 = true
    · have hmem : tc.1 ∈ tables := by simpa using h
      obtain ⟨ext, he, hall⟩ := ih acc
      refine ⟨ext, by simpa [setup_tables_go, hmem] using he, ?_⟩
      intro s hs
      obtain ⟨tc', h1, h2, h3⟩ := hall s hs
      exact ⟨tc', List.mem_cons_of_mem _ h1, h2, h3⟩
    · obtain ⟨ext, he, hall⟩ := ih (acc.1 ++ [tc], acc.2 ++ [SchemaStmt.createTable tc.1 tc.2])
      refine ⟨[SchemaStmt.createTable tc.1 tc.2] ++ ext, ?_, ?_⟩
      · simp only [setup_tables_go, h, if_false, Bool.false_eq_true]
        rw [he, List.append_assoc]
      · intro s hs
        rcases List.mem_append.mp hs with hs1 | hs2
        · have hse : s = SchemaStmt.createTable tc.1 tc.2 := by simpa using hs1
          exact ⟨tc, by simp, hse, by simpa using h⟩
        · obtain ⟨tc', h1, h2, h3⟩ := hall s hs2
          exact ⟨tc', List.mem_cons_of_mem _ h1, h2, h3⟩

theorem setup_go_creates (tables : List String) :
    ∀ (rest : List (String × List String)) (acc : List (String × List String) × List SchemaStmt)
      (tc : String × List String), tc ∈ rest → tables.contains tc.1 = false →
      SchemaStmt.createTable tc.1 tc.2 ∈ (setup_tables_go tables rest acc).2 := by
  intro rest
  induction rest with
  | nil => intro acc tc htc _; simp at htc
  | cons tc0 rest ih =>
    intro acc tc htc hmiss
    rcases List.mem_cons.mp htc with he | hm
    · subst he
      simp only [setup_tables_go, hmiss, if_false, Bool.false_eq_true]
      obtain ⟨ext, hext, -⟩ := setup_go_stmts tables rest
        (acc.1 ++ [tc], acc.2 ++ [SchemaStmt.createTable tc.1 tc.2])
      rw [hext]
      simp
    · by_cases h : tables.contains tc0.1 = true
      · have hmem : tc0.1 ∈ tables := by simpa using h
        simpa [setup_tables_go, hmem] using ih acc tc hm hmiss
      · have hmem : tc0.1 ∉ tables := by simpa using h
        simpa [setup_tables_go, hmem] using
          ih (acc.1 ++ [tc0], acc.2 ++ [SchemaStmt.createTable tc0.1 tc0.2]) tc hm hmiss

theorem setup_go_grow (tables : List String) :
    ∀ (rest : List (String × List String)) (acc : List (String × List String) × List SchemaStmt),
      ∃ ext, (setup_tables_go tables rest acc).1 = acc.1 ++ ext := by
  intro rest
  induction rest with
  | nil => exact fun acc => ⟨[], by simp [setup_tables_go]⟩
  | cons tc rest ih =>
    intro acc
    by_cases h : tables.contains tc.1 = true
    · have hmem : tc.1 ∈ tables := by simpa using h
      obtain ⟨ext, he⟩ := ih acc
      exact ⟨ext, by simpa [setup_tables_go, hmem] using he⟩
    · obtain ⟨ext, he⟩ := ih (acc.1 ++ [tc], acc.2 ++ [SchemaStmt.createTable tc.1 tc.2])
      refine ⟨[tc] ++ ext, ?_⟩
      simp only [setup_tables_go, h, if_false, Bool.false_eq_true]
      rw [he, List.append_assoc]

/-- Claim C4 (counterexample): against a live database whose `tasks`
table has only the column `id` while the expected schema has
`id, uuid`, the startup step issues no statement at all — in
particular no `ALTER TABLE tasks ADD COLUMN uuid` — refuting "issues
one additive ALTER TABLE ... ADD COLUMN statement per missing
column". -/
theorem setup_tables_no_alter_counterexample :
    ("tasks", ["id"]) ∈ [("tasks", ["id"])] ∧
      ("tasks", ["id", "uuid"]) ∈ [("tasks", ["id", "uuid"])] ∧
      "uuid" ∈ ["id", "uuid"] ∧ "uuid" ∉ ["id"] ∧
      (setup_tables [("tasks", ["id"])] [("tasks", ["id", "uuid"])]).2 = [] ∧
      SchemaStmt.alterAddColumn "tasks" "uuid" ∉
        (setup_tables [("tasks", ["id"])] [("tasks", ["id", "uuid"])]).2 :=
  ⟨by decide, by decide, by decide, by decide, rfl, by decide⟩

/-- Claim C4 (amended): the startup schema step is create-only: every
statement it issues is a `CREATE TABLE` for an expected table whose
name is absent from the live table list, each such missing table is
created, no `ALTER TABLE ... ADD COLUMN` is ever issued (column-level
diffing is not performed), and every live table survives with its
column list untouched. -/
theorem setup_tables_spec :
    ∀ live metadata : List (String × List String),
      (∀ s ∈ (setup_tables live metadata).2,
        ∃ tc, tc ∈ metadata ∧ s = SchemaStmt.createTable tc.1 tc.2 ∧
          tc.1 ∉ live.map Prod.fst) ∧
      (∀ tc ∈ metadata, tc.1 ∉ live.map Prod.fst →
        SchemaStmt.createTable tc.1 tc.2 ∈ (setup_tables live metadata).2) ∧
      (∀ t c, SchemaStmt.alterAddColumn t c ∉ (setup_tables live metadata).2) ∧
      (∀ e ∈ live, e ∈ (setup_tables live metadata).1) := by
  intro live metadata
  obtain ⟨ext, hext, hall⟩ := setup_go_stmts (live.map Prod.fst) metadata (live, [])
  refine ⟨?_, ?_, ?_, ?_⟩
  · intro s hs
    rw [setup_tables, hext] at hs
    obtain ⟨tc, h1, h2, h3⟩ := hall s (by simpa using hs)
    exact ⟨tc, h1, h2, by simpa using h3⟩
  · intro tc htc hmiss
    exact setup_go_creates (live.map Prod.fst) metadata (live, []) tc htc (by simpa using hmiss)
  · intro t c hmem
    rw [setup_tables, hext] at hmem
    obtain ⟨tc, -, h2, -⟩ := hall _ (by simpa using hmem)
    cases h2
  · intro e he
    obtain ⟨ext', hext'⟩ := setup_go_grow (live.map Prod.fst) metadata (live, [])
    rw [setup_tables, hext']
    exact List.mem_append_left _ he

/-- Concrete instance of `setup_tables_spec`: with live `tasks(id)` and
expected `tasks(id, uuid)` plus a new table `logs(id)`, the step
creates `logs`, issues no ALTER, and keeps the live `tasks` row
intact. -/
theorem setup_tables_spec_witness :
    SchemaStmt.createTable "logs" ["id"] ∈
        (setup_tables [("tasks", ["id"])] [("tasks", ["id", "uuid"]), ("logs", ["id"])]).2 ∧
      SchemaStmt.alterAddColumn "tasks" "uuid" ∉
        (setup_tables [("tasks", ["id"])] [("tasks", ["id", "uuid"]), ("logs", ["id"])]).2 ∧
      ("tasks", ["id"]) ∈
        (setup_tables [("tasks", ["id"])] [("tasks", ["id", "uuid"]), ("logs", ["id"])]).1 :=
  ⟨(setup_tables_spec [("tasks", ["id"])] [("tasks", ["id", "uuid"]), ("logs", ["id"])]).2.1
      ("logs", ["id"]) (by decide) (by decide),
    (setup_tables_spec [("tasks", ["id"])] [("tasks", ["id", "uuid"]), ("logs", ["id"])]).2.2.1
      "tasks" "uuid",
    (setup_tables_spec [("tasks", ["id"])] [("tasks", ["id", "uuid"]), ("logs", ["id"])]).2.2.2
      ("tasks", ["id"]) (by decide)⟩

/-! ## The priority_due ranking strategy (src/src/sort/plugins/priority_due.py)

`score` builds a list of `math.tanh` values and returns their sum.
Since `Real.tanh` is noncomputable, the embedding separates the
(computable) list of arguments handed to `tanh` from the (real-valued)
sum taken in the theorem statements. -/

/-- Python `timedelta.days`: floor division of the total seconds by
86400 (floors towards minus infinity, like CPython). -/
def pyDays (sec : Int) : Int :=
  Int.fdiv sec 86400

/-- Python `x or default` on an int `x`: `x` unless it is zero. -/
def pyOrInt (x default : Int) : Int :=
  if x = 0 then default else x

/-- The arguments `SortPlugin.score` passes to `math.tanh`, in order
(priority_due.py:15-35): the due-date term — days until due, or the
constant 5 when no due time is set —, an optional start-time term, an
optional Health-category term, and the priority term
`(int(priority) or 5) - 1`.  (In CPython `task.category == "Health"`
compares a Category object with a str and the branch never fires; here
`category` holds the category name, which only widens the model.  The
claims below use tasks without a category, where both readings
agree.) -/
def priority_due_terms (t : Task) (now : Int) : List Int :=
  (match t.due_time with
   | some d => [pyDays (d - now)]
   | none => [5]) ++
  (match t.start_time with
   | some s => [pyDays (s - now)]
   | none => []) ++
  (if t.category = some "Health" then [-1] else []) ++
  [pyOrInt t.priority 5 - 1]

theorem tanh_lt_tanh_of_lt {a b : ℝ} (h : a < b) : Real.tanh a < Real.tanh b := by
  rw [Real.tanh_eq_sinh_div_cosh, Real.tanh_eq_sinh_div_cosh,
    div_lt_div_iff₀ (Real.cosh_pos a) (Real.cosh_pos b)]
  have hs : 0 < Real.sinh (b - a) := Real.sinh_pos_iff.mpr (by linarith)
  have hd := Real.sinh_sub b a
  have hcomm : Real.sinh a * Real.cosh b = Real.cosh b * Real.sinh a := mul_comm _ _
  linarith

/-- Claim C8 (counterexample): an undated task is not scored as if due
in 31 days — its score under `priority_due` differs from that of the
identical task due exactly 31 days out (the code uses `tanh 5`, i.e. a
5-day horizon, for undated tasks). -/
theorem priority_due_not_31_days_counterexample :
    sampleUndatedTask.due_time = none ∧
      ((priority_due_terms sampleUndatedTask 0).map (fun a => Real.tanh (a : ℝ))).sum ≠
        ((priority_due_terms { sampleUndatedTask with due_time := some (31 * 86400) } 0).map
          (fun a => Real.tanh (a : ℝ))).sum := by
  refine ⟨rfl, ?_⟩
  have h1 : priority_due_terms sampleUndatedTask 0 = [5, 2] := rfl
  have h2 : priority_due_terms { sampleUndatedTask with due_time := some (31 * 86400) } 0 =
      [31, 2] := by decide
  have k1 : ((([5, 2] : List Int)).map (fun a => Real.tanh (a : ℝ))).sum =
      Real.tanh (5 : ℝ) + Real.tanh (2 : ℝ) := by
    simp
  have k2 : ((([31, 2] : List Int)).map (fun a => Real.tanh (a : ℝ))).sum =
      Real.tanh (31 : ℝ) + Real.tanh (2 : ℝ) := by
    simp
  rw [h1, h2, k1, k2]
  have hlt : Real.tanh (5 : ℝ) < Real.tanh (31 : ℝ) := tanh_lt_tanh_of_lt (by norm_num)
  intro he
  linarith

/-- Claim C8 (amended): `priority_due` scores a task by summing `tanh`
of its term list, whose first entry is the days-until-due figure and
whose last entry is the priority term `(priority or 5) - 1`; a task
with no due time is treated as due in 5 days, not 31: its term list —
hence its score — is exactly that of the same task due `now + 5 days`,
and for an undated task with no start time and a non-Health category
the score is exactly `tanh 5 + tanh ((priority or 5) - 1)`. -/
theorem priority_due_spec :
    (∀ (t : Task) (now : Int), t.due_time = none →
      priority_due_terms t now =
        priority_due_terms { t with due_time := some (now + 5 * 86400) } now) ∧
      (∀ (t : Task) (now : Int),
        (priority_due_terms t now).getLast? = some (pyOrInt t.priority 5 - 1)) ∧
      (∀ (t : Task) (now : Int), t.due_time = none → t.start_time = none →
        t.category ≠ some "Health" →
        ((priority_due_terms t now).map (fun a => Real.tanh (a : ℝ))).sum =
          Real.tanh ((5 : Int) : ℝ) + Real.tanh ((pyOrInt t.priority 5 - 1 : Int) : ℝ)) := by
  refine ⟨?_, ?_, ?_⟩
  · intro t now hdue
    have h5 : pyDays 432000 = 5 := by decide
    simp [priority_due_terms, hdue, h5]
  · intro t now
    unfold priority_due_terms
    rw [List.getLast?_append]
    cases t.due_time <;> cases t.start_time <;>
      by_cases h : t.category = some "Health" <;> simp [h]
  · intro t now hdue hstart hcat
    simp [priority_due_terms, hdue, hstart, hcat]

/-- Concrete instance of `priority_due_spec` at the undated sample
task (priority 3) and `now = 0`: its score is
`tanh 5 + tanh 2`, the score of the same task due in 5 days. -/
theorem priority_due_spec_witness :
    sampleUndatedTask.due_time = none ∧ sampleUndatedTask.start_time = none ∧
      sampleUndatedTask.category ≠ some "Health" ∧
      ((priority_due_terms sampleUndatedTask 0).map (fun a => Real.tanh (a : ℝ))).sum =
        Real.tanh ((5 : Int) : ℝ) +
          Real.tanh ((pyOrInt sampleUndatedTask.priority 5 - 1 : Int) : ℝ) ∧
      priority_due_terms sampleUndatedTask 0 =
        priority_due_terms { sampleUndatedTask with due_time := some (0 + 5 * 86400) } 0 :=
  ⟨rfl, rfl, by decide,
    priority_due_spec.2.2 sampleUndatedTask 0 rfl rfl (by decide),
    priority_due_spec.1 sampleUndatedTask 0 rfl⟩

end TimeWise
